import Mathlib


set_option maxHeartbeats 1000000
set_option maxRecDepth 2000

/-!
Verification of the position core and transposition table of the Moonfish
chess engine (a Stockfish derivative).  The embedding below translates
`src/src/tt.cpp` and `src/src/position.cpp` into Lean.  Declarations from
headers that are not part of the repository snapshot (types.h, position.h,
tt.h, misc.h, bitboard.h) are modelled from the specification; each such
definition carries a doc comment starting with `Modelled from the spec:`.
Machine integers are modelled as `Nat` (unsigned) or `Int` (signed), with
explicit truncation where the C code truncates.
-/

/-! ## Transposition table (src/src/tt.cpp)

A TTEntry is 10 bytes: key16, move16 (uint16), value16, eval16 (int16),
depth8 (int8), genBound8 (uint8).  The field layout is modelled from the
spec (tt.h is absent); the operations `probe` and `save` are translated
from tt.cpp lines 95-146. -/

/-- Modelled from the spec: truncation to an unsigned 16-bit value,
as performed by a cast to `uint16_t`. -/
def uint16 (x : Nat) : Nat := x % 65536

/-- Modelled from the spec: truncation to an unsigned 8-bit value,
as performed by a cast to `uint8_t`. -/
def uint8 (x : Nat) : Nat := x % 256

/-- Modelled from the spec: conversion of an integer to a signed 16-bit
value, as performed by a cast to `int16_t` (wrap-around semantics). -/
def int16cast (v : Int) : Int := (v + 32768) % 65536 - 32768

/-- Modelled from the spec: conversion of an integer to a signed 8-bit
value, as performed by a cast to `int8_t` (wrap-around semantics). -/
def int8cast (v : Int) : Int := (v + 128) % 256 - 128

/-- Modelled from the spec: `BOUND_EXACT = BOUND_UPPER | BOUND_LOWER`,
the bound kinds being None = 0, Upper = 1, Lower = 2, Exact = 3. -/
def BOUND_EXACT : Nat := 3

/-- Modelled from the spec: one transposition-table entry.  `key16` and
`move16` are uint16 values, `value16` and `eval16` int16 values, `depth8`
an int8 value and `genBound8` a uint8 value. -/
structure TTEntry where
  key16 : Nat
  move16 : Nat
  value16 : Int
  eval16 : Int
  genBound8 : Nat
  depth8 : Int

/-- TTEntry::save (tt.cpp lines 126-146).  `gen8` stands for the global
`TT.generation8`.  The C code tests `if (m || newKey != key16)` to decide
whether `move16` is written, and overwrites the remaining fields only when
the key changed, the new depth is large enough, or the bound is exact. -/
def TTEntry.save (e : TTEntry) (gen8 : Nat) (k : Nat) (v : Int) (pv : Bool)
    (b : Nat) (d : Int) (m : Nat) (ev : Int) : TTEntry :=
  let newKey := uint16 (k >>> 48)
  let move16 := if m ≠ 0 ∨ newKey ≠ e.key16 then uint16 m else e.move16
  if newKey ≠ e.key16 ∨ d > e.depth8 - 4 ∨ b = BOUND_EXACT then
    { key16 := newKey, move16 := move16, value16 := int16cast v,
      eval16 := int16cast ev,
      genBound8 := uint8 (gen8 ||| ((if pv then 1 else 0) <<< 2) ||| b),
      depth8 := int8cast d }
  else
    { e with move16 := move16 }

/-- The relative age of an entry (tt.cpp lines 111-116): the constant 263
is 256 (the modulus of the uint8 generation counter) plus 7, so the low
three bits of genBound8 cannot influence the masked result. -/
def tt_age (gen8 : Nat) (e : TTEntry) : Nat := (263 + gen8 - e.genBound8) &&& 0xF8

/-- The replacement score of an entry: its depth minus its relative age
(tt.cpp lines 115-116). -/
def tt_replace_score (gen8 : Nat) (e : TTEntry) : Int :=
  e.depth8 - (tt_age gen8 e : Int)

/-- Refresh of a matching or empty entry (tt.cpp line 103): the
generation field is renewed while the low three bits (PV flag and bound)
are preserved. -/
def tt_refresh (gen8 : Nat) (e : TTEntry) : TTEntry :=
  { e with genBound8 := uint8 (gen8 ||| (e.genBound8 &&& 7)) }

/-- The result of a probe: the (possibly refreshed) cluster, the `found`
flag, and the index of the returned entry within the cluster. -/
structure ProbeResult where
  cluster : Fin 3 → TTEntry
  found : Bool
  idx : Fin 3

/-- TranspositionTable::probe (tt.cpp lines 95-120), at the level of the
addressed cluster (`first_entry` merely selects the cluster, so the
cluster of ClusterSize = 3 entries is taken as the argument).  The first
loop is unrolled for the three entries; the second loop computes the
replacement entry. -/
def TranspositionTable.probe (c : Fin 3 → TTEntry) (gen8 : Nat) (key : Nat) :
    ProbeResult :=
  let key16 := uint16 (key >>> 48)
  if (c 0).key16 = 0 ∨ (c 0).key16 = key16 then
    { cluster := Function.update c 0 (tt_refresh gen8 (c 0)),
      found := decide ((c 0).key16 ≠ 0), idx := 0 }
  else if (c 1).key16 = 0 ∨ (c 1).key16 = key16 then
    { cluster := Function.update c 1 (tt_refresh gen8 (c 1)),
      found := decide ((c 1).key16 ≠ 0), idx := 1 }
  else if (c 2).key16 = 0 ∨ (c 2).key16 = key16 then
    { cluster := Function.update c 2 (tt_refresh gen8 (c 2)),
      found := decide ((c 2).key16 ≠ 0), idx := 2 }
  else
    let r1 : Fin 3 :=
      if tt_replace_score gen8 (c 0) > tt_replace_score gen8 (c 1) then 1 else 0
    let r2 : Fin 3 :=
      if tt_replace_score gen8 (c r1) > tt_replace_score gen8 (c 2) then 2 else r1
    { cluster := c, found := false, idx := r2 }

/-! ## Basic chess types (modelled from the spec, types.h being absent)

Squares are 0..63 with A1 = 0, H8 = 63 (file-major); SQ_NONE = 64.
Colors are WHITE = 0, BLACK = 1.  Piece types are PAWN = 1 .. KING = 6
with ALL_PIECES = 0; a Piece packs color and type as (color <<< 3) + type.
Moves are a tagged record (the spec prescribes a tagged sum over the
16-bit wire format). -/

def WHITE : Nat := 0

def BLACK : Nat := 1

def ALL_PIECES : Nat := 0

def PAWN : Nat := 1

def KNIGHT : Nat := 2

def BISHOP : Nat := 3

def ROOK : Nat := 4

def QUEEN : Nat := 5

def KING : Nat := 6

def NO_PIECE : Nat := 0

def SQ_NONE : Nat := 64

def NORMAL : Nat := 0

def PROMOTION : Nat := 1

def ENPASSANT : Nat := 2

def CASTLING : Nat := 3

/-- Modelled from the spec: castling right bits, White king side = 1,
White queen side = 2, Black king side = 4, Black queen side = 8. -/
def WHITE_OO : Nat := 1

def WHITE_OOO : Nat := 2

def BLACK_OO : Nat := 4

def BLACK_OOO : Nat := 8

def KING_SIDE : Nat := 5

def QUEEN_SIDE : Nat := 10

def ANY_CASTLING : Nat := 15

def make_piece (c pt : Nat) : Nat := (c <<< 3) + pt

def type_of_piece (pc : Nat) : Nat := pc &&& 7

def color_of (pc : Nat) : Nat := pc >>> 3

def file_of (s : Nat) : Nat := s &&& 7

def rank_of (s : Nat) : Nat := s >>> 3

def make_square (f r : Nat) : Nat := (r <<< 3) + f

/-- Modelled from the spec: relative_square flips the square vertically
for Black. -/
def relative_square (c s : Nat) : Nat := s ^^^ (c * 56)

/-- Modelled from the spec: relative_rank flips the rank for Black. -/
def relative_rank_r (c r : Nat) : Nat := r ^^^ (c * 7)

def relative_rank_sq (c s : Nat) : Nat := relative_rank_r c (rank_of s)

def flip_color (c : Nat) : Nat := c ^^^ 1

/-- Modelled from the spec: the pawn push direction, +8 for White and
-8 for Black. -/
def pawn_push (c : Nat) : Int := if c = WHITE then 8 else -8

/-- Square arithmetic with a signed offset (square enums are ints in the
C code); out-of-range results are clamped at zero, which never occurs on
the inputs the engine produces. -/
def sqAdd (s : Nat) (d : Int) : Nat := ((s : Int) + d).toNat

/-! ## Bitboards (modelled from the spec, bitboard.h being absent)

A bitboard is a 64-bit word, bit i corresponding to square i. -/

def FULL_BB : Nat := 18446744073709551615

def square_bb (s : Nat) : Nat := 1 <<< s

/-- Modelled from the spec: 64-bit bitwise complement. -/
def notBB (b : Nat) : Nat := FULL_BB ^^^ b

def more_than_one (b : Nat) : Bool := decide (b &&& (b - 1) ≠ 0)

/-- Least set bit of a bitboard (0 for the empty board), the square
returned by the lsb primitive. -/
def lsbF : Nat → Nat → Nat
  | 0, _ => 0
  | fuel + 1, b => if b &&& 1 = 1 then 0 else 1 + lsbF fuel (b >>> 1)

def lsbN (b : Nat) : Nat := if b &&& 1 = 1 then 0 else 1 + lsbF 63 (b >>> 1)

/-- One king step from square s, returning the target square when it
stays on the board. -/
def stepOK (s : Nat) (df dr : Int) : Option Nat :=
  let f : Int := (file_of s : Int) + df
  let r : Int := (rank_of s : Int) + dr
  if 0 ≤ f ∧ f < 8 ∧ 0 ≤ r ∧ r < 8 then some ((r * 8 + f).toNat) else none

def stepBB (s : Nat) (df dr : Int) : Nat :=
  match stepOK s df dr with
  | some t => square_bb t
  | none => 0

/-- Modelled from the spec: knight attack bitboard. -/
def knightAttacks (s : Nat) : Nat :=
  stepBB s 1 2 ||| stepBB s 2 1 ||| stepBB s 2 (-1) ||| stepBB s 1 (-2) |||
  stepBB s (-1) (-2) ||| stepBB s (-2) (-1) ||| stepBB s (-2) 1 ||| stepBB s (-1) 2

/-- Modelled from the spec: king attack bitboard. -/
def kingAttacks (s : Nat) : Nat :=
  stepBB s 1 0 ||| stepBB s (-1) 0 ||| stepBB s 0 1 ||| stepBB s 0 (-1) |||
  stepBB s 1 1 ||| stepBB s 1 (-1) ||| stepBB s (-1) 1 ||| stepBB s (-1) (-1)

/-- Modelled from the spec: the squares attacked by a pawn of color c
standing on square s. -/
def pawnAttacks (c s : Nat) : Nat :=
  if c = WHITE then stepBB s (-1) 1 ||| stepBB s 1 1
  else stepBB s (-1) (-1) ||| stepBB s 1 (-1)

/-- Sliding-attack ray walk: collect squares in direction (df, dr) from
cur, stopping at (and including) the first occupied square. -/
def rayAux (occ : Nat) (df dr : Int) : Nat → Nat → Nat
  | 0, _ => 0
  | fuel + 1, cur =>
    match stepOK cur df dr with
    | none => 0
    | some t =>
      square_bb t ||| (if occ.testBit t then 0 else rayAux occ df dr fuel t)

/-- Modelled from the spec: rook attacks from s given occupancy occ. -/
def rookAttacks (s occ : Nat) : Nat :=
  rayAux occ 1 0 7 s ||| rayAux occ (-1) 0 7 s |||
  rayAux occ 0 1 7 s ||| rayAux occ 0 (-1) 7 s

/-- Modelled from the spec: bishop attacks from s given occupancy occ. -/
def bishopAttacks (s occ : Nat) : Nat :=
  rayAux occ 1 1 7 s ||| rayAux occ 1 (-1) 7 s |||
  rayAux occ (-1) 1 7 s ||| rayAux occ (-1) (-1) 7 s

/-- Modelled from the spec: pseudo attacks of a rook on an empty board. -/
def PseudoAttacksRook (s : Nat) : Nat := rookAttacks s 0

/-- Modelled from the spec: pseudo attacks of a bishop on an empty board. -/
def PseudoAttacksBishop (s : Nat) : Nat := bishopAttacks s 0

/-- Direction (as a file and rank step) from a toward b when the squares
are aligned on a file, rank or diagonal. -/
def dirTo (a b : Nat) : Option (Int × Int) :=
  let df : Int := (file_of b : Int) - (file_of a : Int)
  let dr : Int := (rank_of b : Int) - (rank_of a : Int)
  if a = b ∨ 64 ≤ a ∨ 64 ≤ b then none
  else if df = 0 then some (0, if 0 < dr then 1 else -1)
  else if dr = 0 then some ((if 0 < df then 1 else -1), 0)
  else if df = dr ∨ df = -dr then
    some ((if 0 < df then 1 else -1), (if 0 < dr then 1 else -1))
  else none

def betweenWalk (b : Nat) (df dr : Int) : Nat → Nat → Nat
  | 0, _ => 0
  | fuel + 1, cur =>
    match stepOK cur df dr with
    | none => 0
    | some t => if t = b then 0 else square_bb t ||| betweenWalk b df dr fuel t

/-- Modelled from the spec: the squares strictly between two aligned
squares (empty when the squares are not aligned). -/
def between_bb (a b : Nat) : Nat :=
  match dirTo a b with
  | none => 0
  | some (df, dr) => betweenWalk b df dr 7 a

/-- Modelled from the spec: the middlegame piece values used by
`PieceValue[MG][pc]` (identical for both colors, zero for kings and for
NO_PIECE). -/
def PieceValue (pc : Nat) : Int :=
  if pc &&& 7 = PAWN then 128
  else if pc &&& 7 = KNIGHT then 781
  else if pc &&& 7 = BISHOP then 825
  else if pc &&& 7 = ROOK then 1276
  else if pc &&& 7 = QUEEN then 2538
  else 0

/-! ## StateInfo and Position (modelled from the spec for the data
layout; position.h is absent).  The per-ply StateInfo stack is modelled
as a list whose head is the current state; the `previous` pointer is the
tail. -/

structure StateInfo where
  pawnKey : Nat
  materialKey : Nat
  nonPawnMaterialW : Int
  nonPawnMaterialB : Int
  castlingRights : Nat
  rule50 : Int
  pliesFromNull : Int
  epSquare : Nat
  key : Nat
  checkersBB : Nat
  capturedPiece : Nat
  blockersForKingW : Nat
  blockersForKingB : Nat
  pinnersW : Nat
  pinnersB : Nat
  csPawn : Nat
  csKnight : Nat
  csBishop : Nat
  csRook : Nat
  csQueen : Nat
  csKing : Nat
  repetition : Int

def StateInfo.zero : StateInfo :=
  ⟨0, 0, 0, 0, 0, 0, 0, 0, 0, 0, 0, 0, 0, 0, 0, 0, 0, 0, 0, 0, 0, 0⟩

def StateInfo.pinners (si : StateInfo) (c : Nat) : Nat :=
  if c = WHITE then si.pinnersW else si.pinnersB

def StateInfo.blockersForKing (si : StateInfo) (c : Nat) : Nat :=
  if c = WHITE then si.blockersForKingW else si.blockersForKingB

def StateInfo.nonPawnMaterial (si : StateInfo) (c : Nat) : Int :=
  if c = WHITE then si.nonPawnMaterialW else si.nonPawnMaterialB

structure Pos where
  board : Nat → Nat
  byTypeBB : Nat → Nat
  byColorBB : Nat → Nat
  pieceCount : Nat → Nat
  pieceList : Nat → Nat → Nat
  index : Nat → Nat
  castlingRightsMask : Nat → Nat
  castlingRookSquare : Nat → Nat
  castlingPath : Nat → Nat
  sideToMove : Nat
  gamePly : Int
  chess960 : Bool
  sts : List StateInfo

def Pos.st (p : Pos) : StateInfo := p.sts.headD StateInfo.zero

/-- The global Zobrist tables (namespace Zobrist, position.cpp 39-45),
as a bundle so the position operations can be stated for any table. -/
structure Zob where
  psq : Nat → Nat → Nat
  enpassant : Nat → Nat
  castling : Nat → Nat
  noPawns : Nat
  side : Nat

structure Move where
  fromSq : Nat
  toSq : Nat
  mtype : Nat
  promo : Nat

def Pos.pieces (p : Pos) : Nat := p.byTypeBB ALL_PIECES

def Pos.piecesC (p : Pos) (c : Nat) : Nat := p.byColorBB c

def Pos.piecesT (p : Pos) (t : Nat) : Nat := p.byTypeBB t

def Pos.piecesCT (p : Pos) (c t : Nat) : Nat := p.byColorBB c &&& p.byTypeBB t

/-- Modelled from the spec: Position::square of the king of color c; by
spec invariant 1 and the pieceList invariant this is the unique square
holding that king, recovered here from the bitboards so that it does not
depend on the pieceList bookkeeping. -/
def Pos.king_square (p : Pos) (c : Nat) : Nat :=
  lsbN (p.byColorBB c &&& p.byTypeBB KING)

def Pos.ep_square (p : Pos) : Nat := p.st.epSquare

def Pos.rule50_count (p : Pos) : Int := p.st.rule50

def Pos.can_castle (p : Pos) (cr : Nat) : Bool :=
  decide (p.st.castlingRights &&& cr ≠ 0)

/-- Position::attackers_to (position.cpp 456-464). -/
def Pos.attackers_to_occ (p : Pos) (s occ : Nat) : Nat :=
  (pawnAttacks BLACK s &&& p.piecesCT WHITE PAWN) |||
  (pawnAttacks WHITE s &&& p.piecesCT BLACK PAWN) |||
  (knightAttacks s &&& p.piecesT KNIGHT) |||
  (rookAttacks s occ &&& (p.piecesT ROOK ||| p.piecesT QUEEN)) |||
  (bishopAttacks s occ &&& (p.piecesT BISHOP ||| p.piecesT QUEEN)) |||
  (kingAttacks s &&& p.piecesT KING)

def Pos.attackers_to (p : Pos) (s : Nat) : Nat :=
  p.attackers_to_occ s p.pieces

/-- Position::slider_blockers (position.cpp 427-450); returns the pair
(blockers, pinners). -/
def Pos.slider_blockers (p : Pos) (sliders s : Nat) : Nat × Nat :=
  let snipers := ((PseudoAttacksRook s &&& (p.piecesT QUEEN ||| p.piecesT ROOK)) |||
    (PseudoAttacksBishop s &&& (p.piecesT QUEEN ||| p.piecesT BISHOP))) &&& sliders
  let occupancy := p.pieces ^^^ snipers
  (List.range 64).foldl
    (fun (acc : Nat × Nat) sn =>
      if snipers.testBit sn then
        let b := between_bb s sn &&& occupancy
        if b ≠ 0 ∧ ¬(more_than_one b = true) then
          (acc.1 ||| b,
            if b &&& p.piecesC (color_of (p.board s)) ≠ 0 then
              acc.2 ||| square_bb sn
            else acc.2)
        else acc
      else acc)
    (0, 0)

/-- Position::set_check_info (position.cpp 286-299). -/
def Pos.set_check_info (p : Pos) (si : StateInfo) : StateInfo :=
  let bw := p.slider_blockers (p.piecesC BLACK) (p.king_square WHITE)
  let bb := p.slider_blockers (p.piecesC WHITE) (p.king_square BLACK)
  let ksq := p.king_square (flip_color p.sideToMove)
  { si with
    blockersForKingW := bw.1, pinnersB := bw.2,
    blockersForKingB := bb.1, pinnersW := bb.2,
    csPawn := pawnAttacks (flip_color p.sideToMove) ksq,
    csKnight := knightAttacks ksq,
    csBishop := bishopAttacks ksq p.pieces,
    csRook := rookAttacks ksq p.pieces,
    csQueen := bishopAttacks ksq p.pieces ||| rookAttacks ksq p.pieces,
    csKing := 0 }

/-! ## Board mutation primitives

Modelled from the spec (position.h is absent): the pieceList/index
reverse lookup with O(1) removal by swapping with the last list entry,
exactly as required by the dense-count indexing that do_move performs on
`pieceCount` for the material key.  remove_piece does not clear the
board square (the capturing piece overwrites it); move_piece leaves
`index[from]` stale. -/

/-- Pointwise update of a Nat-indexed array; the new value is an
argument, so it is computed once when the update is built. -/
def updFn (f : Nat → Nat) (k v : Nat) : Nat → Nat :=
  fun a => if a = k then v else f a

/-- Pointwise update of a doubly indexed array. -/
def updFn2 (g : Nat → Nat → Nat) (k1 k2 v : Nat) : Nat → Nat → Nat :=
  fun a b => if a = k1 ∧ b = k2 then v else g a b

def orAt (f : Nat → Nat) (k v : Nat) : Nat → Nat :=
  updFn f k (f k ||| v)

def xorAt (f : Nat → Nat) (k v : Nat) : Nat → Nat :=
  updFn f k (f k ^^^ v)

def bumpAt (f : Nat → Nat) (k : Nat) : Nat → Nat :=
  updFn f k (f k + 1)

def dropAt (f : Nat → Nat) (k : Nat) : Nat → Nat :=
  updFn f k (f k - 1)

/-- Modelled from the spec: Position::put_piece. -/
def Pos.put_piece (p : Pos) (pc s : Nat) : Pos :=
  { p with
    board := updFn p.board s pc,
    byTypeBB := orAt (orAt p.byTypeBB ALL_PIECES (square_bb s)) (type_of_piece pc) (square_bb s),
    byColorBB := orAt p.byColorBB (color_of pc) (square_bb s),
    index := updFn p.index s (p.pieceCount pc),
    pieceList := updFn2 p.pieceList pc (p.pieceCount pc) s,
    pieceCount := bumpAt (bumpAt p.pieceCount pc) (make_piece (color_of pc) ALL_PIECES) }

/-- Modelled from the spec: Position::remove_piece; swaps the removed
entry with the last one of its piece list, so it is not reversible.  The
two pieceList writes of the C code happen in order, so the clearing of
slot cnt is the outer update. -/
def Pos.remove_piece (p : Pos) (pc s : Nat) : Pos :=
  let cnt := p.pieceCount pc - 1
  let lastSquare := p.pieceList pc cnt
  { p with
    byTypeBB := xorAt (xorAt p.byTypeBB ALL_PIECES (square_bb s)) (type_of_piece pc) (square_bb s),
    byColorBB := xorAt p.byColorBB (color_of pc) (square_bb s),
    index := updFn p.index lastSquare (p.index s),
    pieceList := updFn2 (updFn2 p.pieceList pc (p.index s) lastSquare) pc cnt SQ_NONE,
    pieceCount := dropAt (dropAt p.pieceCount pc) (make_piece (color_of pc) ALL_PIECES) }

/-- Modelled from the spec: Position::move_piece. -/
def Pos.move_piece (p : Pos) (pc fr tsq : Nat) : Pos :=
  let fromTo := square_bb fr ^^^ square_bb tsq
  { p with
    byTypeBB := xorAt (xorAt p.byTypeBB ALL_PIECES fromTo) (type_of_piece pc) fromTo,
    byColorBB := xorAt p.byColorBB (color_of pc) fromTo,
    board := updFn (updFn p.board fr NO_PIECE) tsq pc,
    index := updFn p.index tsq (p.index fr),
    pieceList := updFn2 p.pieceList pc (p.index fr) tsq }

def Pos.replace_st (p : Pos) (si : StateInfo) : Pos :=
  { p with sts := si :: p.sts.tail }

/-! ## set_state and the scratch keys (position.cpp 307-340) -/

def PiecesL : List Nat := [1, 2, 3, 4, 5, 6, 9, 10, 11, 12, 13, 14]

/-- The piece-square fold of set_state: iterate over the occupied
squares of the board (the pieces() bitboard, in ascending-square pop_lsb
order) and XOR the piece-square keys. -/
def keyFold (Z : Zob) (p : Pos) : Nat :=
  (List.range 64).foldl
    (fun k s => if (p.byTypeBB ALL_PIECES).testBit s then k ^^^ Z.psq (p.board s) s else k) 0

def pawnKeyFold (Z : Zob) (p : Pos) : Nat :=
  (List.range 64).foldl
    (fun k s =>
      if (p.byTypeBB ALL_PIECES).testBit s ∧ type_of_piece (p.board s) = PAWN then
        k ^^^ Z.psq (p.board s) s
      else k)
    Z.noPawns

def npmFold (Z : Zob) (p : Pos) (c : Nat) : Int :=
  (List.range 64).foldl
    (fun v s =>
      if (p.byTypeBB ALL_PIECES).testBit s ∧ type_of_piece (p.board s) ≠ PAWN ∧
          type_of_piece (p.board s) ≠ KING ∧ color_of (p.board s) = c then
        v + PieceValue (p.board s)
      else v)
    0

def materialKeyFold (Z : Zob) (p : Pos) : Nat :=
  PiecesL.foldl
    (fun k pc => (List.range (p.pieceCount pc)).foldl (fun k2 c => k2 ^^^ Z.psq pc c) k) 0

/-- The full scratch key of set_state: piece-square keys, en-passant
file, side to move, castling rights. -/
def scratchKey (Z : Zob) (p : Pos) (si : StateInfo) : Nat :=
  let k0 := keyFold Z p
  let k1 := if si.epSquare ≠ SQ_NONE then k0 ^^^ Z.enpassant (file_of si.epSquare) else k0
  let k2 := if p.sideToMove = BLACK then k1 ^^^ Z.side else k1
  k2 ^^^ Z.castling si.castlingRights

/-- Position::set_state (position.cpp 307-340). -/
def Pos.set_state (Z : Zob) (p : Pos) (si : StateInfo) : StateInfo :=
  let base := p.set_check_info si
  { base with
    key := scratchKey Z p si,
    pawnKey := pawnKeyFold Z p,
    materialKey := materialKeyFold Z p,
    nonPawnMaterialW := npmFold Z p WHITE,
    nonPawnMaterialB := npmFold Z p BLACK,
    checkersBB := p.attackers_to (p.king_square p.sideToMove) &&&
      p.piecesC (flip_color p.sideToMove) }

/-! ## FEN parsing (Position::set, position.cpp 136-260) -/

def PieceToChar : List Char := " PNBRQK  pnbrqk".data

def Pos.emptyPos : Pos :=
  { board := fun _ => NO_PIECE, byTypeBB := fun _ => 0, byColorBB := fun _ => 0,
    pieceCount := fun _ => 0, pieceList := fun _ _ => SQ_NONE, index := fun _ => 0,
    castlingRightsMask := fun _ => 0, castlingRookSquare := fun _ => 0,
    castlingPath := fun _ => 0, sideToMove := WHITE, gamePly := 0,
    chess960 := false, sts := [StateInfo.zero] }

def parsePlacement : List Char → Int → Pos → (Pos × List Char)
  | [], _, p => (p, [])
  | ch :: rest, sq, p =>
    if ch.isWhitespace then (p, rest)
    else if ch.isDigit then parsePlacement rest (sq + (ch.toNat - 48 : Nat)) p
    else if ch = '/' then parsePlacement rest (sq - 16) p
    else
      match List.findIdx? (fun c2 => c2 = ch) PieceToChar with
      | some idx =>
        parsePlacement rest (sq + 1)
          (if 0 ≤ sq ∧ sq < 64 then p.put_piece idx sq.toNat else p)
      | none => parsePlacement rest sq p

def parseColor : List Char → Nat × List Char
  | [] => (BLACK, [])
  | ch :: rest => (if ch = 'w' then WHITE else BLACK, rest.drop 1)

def scanDown (p : Pos) (rook : Nat) : Nat → Nat → Nat
  | 0, cur => cur
  | fuel + 1, cur => if p.board cur = rook then cur else scanDown p rook fuel (cur - 1)

def scanUp (p : Pos) (rook : Nat) : Nat → Nat → Nat
  | 0, cur => cur
  | fuel + 1, cur => if p.board cur = rook then cur else scanUp p rook fuel (cur + 1)

/-- Position::set_castling_right (position.cpp 266-281). -/
def Pos.set_castling_right (p : Pos) (c rfrom : Nat) : Pos :=
  let kfrom := p.king_square c
  let cr := (if c = WHITE then 3 else 12) &&& (if kfrom < rfrom then KING_SIDE else QUEEN_SIDE)
  let kto := relative_square c (if cr &&& KING_SIDE ≠ 0 then 6 else 2)
  let rto := relative_square c (if cr &&& KING_SIDE ≠ 0 then 5 else 3)
  { p with
    sts := { p.st with castlingRights := p.st.castlingRights ||| cr } :: p.sts.tail,
    castlingRightsMask := orAt (orAt p.castlingRightsMask kfrom cr) rfrom cr,
    castlingRookSquare := updFn p.castlingRookSquare cr rfrom,
    castlingPath := updFn p.castlingPath cr
      ((between_bb rfrom rto ||| between_bb kfrom kto ||| square_bb rto ||| square_bb kto)
        &&& notBB (square_bb kfrom ||| square_bb rfrom)) }

def parseCastling : List Char → Pos → (Pos × List Char)
  | [], p => (p, [])
  | ch :: rest, p =>
    if ch.isWhitespace then (p, rest)
    else
      let c := if ch.isLower then BLACK else WHITE
      let rook := make_piece c ROOK
      let tok := ch.toUpper
      if tok = 'K' then
        parseCastling rest (p.set_castling_right c (scanDown p rook 64 (relative_square c 7)))
      else if tok = 'Q' then
        parseCastling rest (p.set_castling_right c (scanUp p rook 64 (relative_square c 0)))
      else if 'A' ≤ tok ∧ tok ≤ 'H' then
        parseCastling rest
          (p.set_castling_right c (make_square (tok.toNat - 65) (relative_rank_r c 0)))
      else parseCastling rest p

def Pos.set_ep (p : Pos) (eps : Nat) : Pos :=
  p.replace_st { p.st with epSquare := eps }

def parseEP (p : Pos) : List Char → (Pos × List Char)
  | [] => (p.set_ep SQ_NONE, [])
  | col :: rest =>
    if 'a' ≤ col ∧ col ≤ 'h' then
      match rest with
      | [] => (p.set_ep SQ_NONE, [])
      | row :: rest2 =>
        if row = '3' ∨ row = '6' then
          let eps := make_square (col.toNat - 97) (row.toNat - 49)
          let ok := (p.attackers_to eps &&& p.piecesCT p.sideToMove PAWN ≠ 0) ∧
            (p.piecesCT (flip_color p.sideToMove) PAWN &&&
              square_bb (sqAdd eps (pawn_push (flip_color p.sideToMove))) ≠ 0)
          (p.set_ep (if ok then eps else SQ_NONE), rest2)
        else (p.set_ep SQ_NONE, rest2)
    else (p.set_ep SQ_NONE, rest)

def skipWS : List Char → List Char
  | [] => []
  | ch :: rest => if ch.isWhitespace then skipWS rest else ch :: rest

def parseNatGo : List Char → Nat → (Nat × List Char)
  | [], acc => (acc, [])
  | ch :: rest, acc =>
    if ch.isDigit then parseNatGo rest (acc * 10 + (ch.toNat - 48)) else (acc, ch :: rest)

/-- Position::set (position.cpp 136-260): build a Position from a FEN
string.  The trailing call to set_state establishes the hashes. -/
def Position.set (Z : Zob) (fen : String) (isChess960 : Bool) : Pos :=
  let s1 := parsePlacement fen.data 56 Pos.emptyPos
  let c1 := parseColor s1.2
  let p2 := { s1.1 with sideToMove := c1.1 }
  let s3 := parseCastling c1.2 p2
  let s4 := parseEP s3.1 s3.2
  let s5 := parseNatGo (skipWS s4.2) 0
  let s6 := parseNatGo (skipWS s5.2) 0
  let p4 := s4.1.replace_st { s4.1.st with rule50 := (s5.1 : Int) }
  let gp : Int :=
    max (2 * (max (s6.1 : Int) ((s5.1 : Int) / 2 + 1) - 1)) 0 +
      (if c1.1 = BLACK then 1 else 0)
  let p5 := { p4 with gamePly := gp, chess960 := isChess960 }
  p5.replace_st (p5.set_state Z p5.st)

/-! ## Move mechanics (position.cpp 660-969) -/

/-- Position::do_castling (position.cpp 911-925): remove both pieces
first (squares can overlap in Chess960), explicitly clear the two source
board squares, then place king and rook.  The first component is the new
position; the remaining ones are kto, rfrom and rto. -/
def Pos.do_castling (Do : Bool) (p : Pos) (us fr to0 : Nat) : Pos × Nat × Nat × Nat :=
  let kingSide := fr < to0
  let rfrom := to0
  let rto := relative_square us (if kingSide then 5 else 3)
  let kto := relative_square us (if kingSide then 6 else 2)
  let p1 := p.remove_piece (make_piece us KING) (if Do then fr else kto)
  let p2 := p1.remove_piece (make_piece us ROOK) (if Do then rfrom else rto)
  let p3 := { p2 with
    board := updFn (updFn p2.board (if Do then fr else kto) NO_PIECE)
      (if Do then rfrom else rto) NO_PIECE }
  let p4 := p3.put_piece (make_piece us KING) (if Do then kto else fr)
  let p5 := p4.put_piece (make_piece us ROOK) (if Do then rto else rfrom)
  (p5, kto, rfrom, rto)

/-- The backward repetition scan of do_move (position.cpp 822-839): walk
the StateInfo chain two plies at a time, comparing keys; sts has the new
state at index 0. -/
def repScan (sts : List StateInfo) (selfKey : Nat) (endI : Int) : Nat → Nat → Int
  | 0, _ => 0
  | fuel + 1, i =>
    if (i : Int) ≤ endI then
      if (sts.getD i StateInfo.zero).key = selfKey then
        if (sts.getD i StateInfo.zero).repetition ≠ 0 then -(i : Int) else (i : Int)
      else repScan sts selfKey endI fuel (i + 2)
    else 0

/-- Position::do_move (position.cpp 660-842).  The node counter and the
prefetches are omitted (they do not touch the position); the asserts
become hypotheses of the theorems. -/
def Pos.do_move (Z : Zob) (p : Pos) (m : Move) (givesCheck : Bool) : Pos :=
  let st0 := p.st
  let us := p.sideToMove
  let them := flip_color us
  let fr := m.fromSq
  let tsq := m.toSq
  let pc := p.board fr
  let captured0 := if m.mtype = ENPASSANT then make_piece them PAWN else p.board tsq
  let k0 := st0.key ^^^ Z.side
  let rule50a := st0.rule50 + 1
  let pfn := st0.pliesFromNull + 1
  -- castling stage: do_castling returns the updated target square kto
  let castDat := p.do_castling true us fr tsq
  let pA := if m.mtype = CASTLING then castDat.1 else p
  let toA := if m.mtype = CASTLING then castDat.2.1 else tsq
  let kA := if m.mtype = CASTLING then
      k0 ^^^ Z.psq captured0 castDat.2.2.1 ^^^ Z.psq captured0 castDat.2.2.2
    else k0
  let captured := if m.mtype = CASTLING then NO_PIECE else captured0
  -- capture stage
  let capsq := if m.mtype = ENPASSANT then sqAdd tsq (-(pawn_push us)) else toA
  let pB := if captured ≠ 0 then
      (if type_of_piece captured = PAWN ∧ m.mtype = ENPASSANT then
        { pA with board := updFn pA.board capsq NO_PIECE }
      else pA).remove_piece captured capsq
    else pA
  let pawnKeyB := if captured ≠ 0 ∧ type_of_piece captured = PAWN then
      st0.pawnKey ^^^ Z.psq captured capsq
    else st0.pawnKey
  let npmThemB := if captured ≠ 0 ∧ type_of_piece captured ≠ PAWN then
      st0.nonPawnMaterial them - PieceValue captured
    else st0.nonPawnMaterial them
  let kB := if captured ≠ 0 then kA ^^^ Z.psq captured capsq else kA
  let matKeyB := if captured ≠ 0 then
      st0.materialKey ^^^ Z.psq captured (pB.pieceCount captured)
    else st0.materialKey
  let rule50b := if captured ≠ 0 then 0 else rule50a
  -- mover key update, en-passant reset, castling rights
  let kC := kB ^^^ Z.psq pc fr ^^^ Z.psq pc toA
  let kD := if st0.epSquare ≠ SQ_NONE then kC ^^^ Z.enpassant (file_of st0.epSquare) else kC
  let crMask := p.castlingRightsMask fr ||| p.castlingRightsMask toA
  let doCR := st0.castlingRights ≠ 0 ∧ crMask ≠ 0
  let kE := if doCR then kD ^^^ Z.castling (st0.castlingRights &&& crMask) else kD
  let crE := if doCR then st0.castlingRights &&& notBB crMask else st0.castlingRights
  -- move the piece (castling was handled above)
  let pC := if m.mtype ≠ CASTLING then pB.move_piece pc fr toA else pB
  -- pawn-specific work
  let isPawn := type_of_piece pc = PAWN
  let epCond := isPawn ∧ (toA ^^^ fr) = 16 ∧
    pawnAttacks us (sqAdd toA (-(pawn_push us))) &&& pC.piecesCT them PAWN ≠ 0
  let epNew := if epCond then sqAdd toA (-(pawn_push us)) else SQ_NONE
  let kF := if epCond then kE ^^^ Z.enpassant (file_of epNew) else kE
  let promoCond := isPawn ∧ ¬epCond ∧ m.mtype = PROMOTION
  let promoPc := make_piece us m.promo
  let pD := if promoCond then (pC.remove_piece pc toA).put_piece promoPc toA else pC
  let kG := if promoCond then kF ^^^ Z.psq pc toA ^^^ Z.psq promoPc toA else kF
  let pawnKeyG := if promoCond then pawnKeyB ^^^ Z.psq pc toA else pawnKeyB
  let matKeyG := if promoCond then
      matKeyB ^^^ Z.psq promoPc (pD.pieceCount promoPc - 1) ^^^ Z.psq pc (pD.pieceCount pc)
    else matKeyB
  let npmUsG := if promoCond then st0.nonPawnMaterial us + PieceValue promoPc
    else st0.nonPawnMaterial us
  let pawnKeyH := if isPawn then pawnKeyG ^^^ Z.psq pc fr ^^^ Z.psq pc toA else pawnKeyG
  let rule50H := if isPawn then 0 else rule50b
  -- final state assembly
  let checkers := if givesCheck then
      pD.attackers_to (pD.king_square them) &&& pD.piecesC us
    else 0
  let npmW := if us = WHITE then npmUsG else npmThemB
  let npmB := if us = WHITE then npmThemB else npmUsG
  let pE := { pD with sideToMove := them, gamePly := p.gamePly + 1 }
  let newStA : StateInfo :=
    { pawnKey := pawnKeyH, materialKey := matKeyG,
      nonPawnMaterialW := npmW, nonPawnMaterialB := npmB,
      castlingRights := crE, rule50 := rule50H, pliesFromNull := pfn,
      epSquare := epNew, key := kG, checkersBB := checkers,
      capturedPiece := captured,
      blockersForKingW := 0, blockersForKingB := 0, pinnersW := 0, pinnersB := 0,
      csPawn := 0, csKnight := 0, csBishop := 0, csRook := 0, csQueen := 0,
      csKing := 0, repetition := 0 }
  let newStB := pE.set_check_info newStA
  let endI : Int := min rule50H pfn
  let rep := if 4 ≤ endI then repScan (newStB :: p.sts) kG endI 64 4 else 0
  { pE with sts := { newStB with repetition := rep } :: p.sts }

/-- Position::undo_move (position.cpp 848-906): the exact inverse; the
hashes are restored by popping the StateInfo stack. -/
def Pos.undo_move (p : Pos) (m : Move) : Pos :=
  let us := flip_color p.sideToMove
  let fr := m.fromSq
  let tsq := m.toSq
  let pc0 := p.board tsq
  let pA := if m.mtype = PROMOTION then
      (p.remove_piece pc0 tsq).put_piece (make_piece us PAWN) tsq
    else p
  let pc := if m.mtype = PROMOTION then make_piece us PAWN else pc0
  let pB := if m.mtype = CASTLING then (pA.do_castling false us fr tsq).1
    else
      let pMoved := pA.move_piece pc tsq fr
      if p.st.capturedPiece ≠ 0 then
        pMoved.put_piece p.st.capturedPiece
          (if m.mtype = ENPASSANT then sqAdd tsq (-(pawn_push us)) else tsq)
      else pMoved
  { pB with sideToMove := us, gamePly := p.gamePly - 1, sts := p.sts.tail }

/-- Position::do_null_move (position.cpp 931-961). -/
def Pos.do_null_move (Z : Zob) (p : Pos) : Pos :=
  let st0 := p.st
  let k1 := if st0.epSquare ≠ SQ_NONE then st0.key ^^^ Z.enpassant (file_of st0.epSquare)
    else st0.key
  let newStA := { st0 with
    epSquare := SQ_NONE, key := k1 ^^^ Z.side,
    rule50 := st0.rule50 + 1, pliesFromNull := 0, repetition := 0 }
  let p1 := { p with sideToMove := flip_color p.sideToMove, sts := newStA :: p.sts }
  p1.replace_st (p1.set_check_info p1.st)

/-- Position::undo_null_move (position.cpp 963-969). -/
def Pos.undo_null_move (p : Pos) : Pos :=
  { p with sts := p.sts.tail, sideToMove := flip_color p.sideToMove }

/-- Position::is_draw (position.cpp 1120-1125): draw by repetition, the
comparison `st->repetition < ply` being on the signed repetition field. -/
def Pos.is_draw (p : Pos) (ply : Int) : Bool :=
  decide (p.st.repetition ≠ 0 ∧ p.st.repetition < ply)

/-! ## FEN emission (Position::fen, position.cpp 373-417) -/

/-- Modelled from the spec: UCI::square, the algebraic name of a square. -/
def UCIsquare (s : Nat) : List Char :=
  [Char.ofNat (97 + file_of s), Char.ofNat (49 + rank_of s)]

def fenRowGo (p : Pos) (r : Nat) : Nat → List Nat → List Char
  | cnt, [] => if cnt ≠ 0 then [Char.ofNat (48 + cnt)] else []
  | cnt, f :: fs =>
    if p.board (make_square f r) = NO_PIECE then fenRowGo p r (cnt + 1) fs
    else
      (if cnt ≠ 0 then [Char.ofNat (48 + cnt)] else []) ++
        [PieceToChar.getD (p.board (make_square f r)) ' '] ++ fenRowGo p r 0 fs

def fenRows (p : Pos) : List Nat → List Char
  | [] => []
  | [r] => fenRowGo p r 0 [0, 1, 2, 3, 4, 5, 6, 7]
  | r :: rs => fenRowGo p r 0 [0, 1, 2, 3, 4, 5, 6, 7] ++ '/' :: fenRows p rs

def fenCastleChars (p : Pos) : List Char :=
  (if p.can_castle WHITE_OO then
    [if p.chess960 then Char.ofNat (65 + file_of (p.castlingRookSquare WHITE_OO)) else 'K']
  else []) ++
  (if p.can_castle WHITE_OOO then
    [if p.chess960 then Char.ofNat (65 + file_of (p.castlingRookSquare WHITE_OOO)) else 'Q']
  else []) ++
  (if p.can_castle BLACK_OO then
    [if p.chess960 then Char.ofNat (97 + file_of (p.castlingRookSquare BLACK_OO)) else 'k']
  else []) ++
  (if p.can_castle BLACK_OOO then
    [if p.chess960 then Char.ofNat (97 + file_of (p.castlingRookSquare BLACK_OOO)) else 'q']
  else []) ++
  (if ¬(p.can_castle ANY_CASTLING = true) then ['-'] else [])

def Pos.fen (p : Pos) : String :=
  String.mk
    (fenRows p [7, 6, 5, 4, 3, 2, 1, 0] ++
      (if p.sideToMove = WHITE then " w ".data else " b ".data) ++
      fenCastleChars p ++
      (if p.ep_square = SQ_NONE then " - ".data
        else ' ' :: UCIsquare p.ep_square ++ [' ']) ++
      (toString p.st.rule50).data ++ [' '] ++
      (toString (1 + (p.gamePly - (if p.sideToMove = BLACK then 1 else 0)) / 2)).data)

/-! ## Static exchange evaluation (Position::see_ge, position.cpp 995-1114) -/

/-- The least-valuable-attacker scan of see_ge (lines 1064-1071): the
first piece type from PAWN upward present among the attackers, KING when
none is. -/
def leastAttackerType (p : Pos) (stmAttackers : Nat) : Nat :=
  if stmAttackers &&& p.byTypeBB PAWN ≠ 0 then PAWN
  else if stmAttackers &&& p.byTypeBB KNIGHT ≠ 0 then KNIGHT
  else if stmAttackers &&& p.byTypeBB BISHOP ≠ 0 then BISHOP
  else if stmAttackers &&& p.byTypeBB ROOK ≠ 0 then ROOK
  else if stmAttackers &&& p.byTypeBB QUEEN ≠ 0 then QUEEN
  else KING

/-- The capture-recapture loop of see_ge (position.cpp 1037-1111); each
recursion step removes one attacker from `occupied`, so fuel 64 makes the
fuel bound unreachable. -/
def seeLoop (p : Pos) (tsq : Nat) :
    Nat → Nat → Int → Nat → Nat → Nat → Bool
  | 0, _, _, result, _, _ => result ≠ 0
  | fuel + 1, stm0, balance0, result0, occupied0, attackers0 =>
    let stm := flip_color stm0
    let attackers := attackers0 &&& occupied0
    let stmAttackers0 := attackers &&& p.piecesC stm
    if stmAttackers0 = 0 then result0 ≠ 0
    else
      let stmAttackers := if p.st.pinners (flip_color stm) &&& occupied0 ≠ 0 then
          stmAttackers0 &&& notBB (p.st.blockersForKing stm)
        else stmAttackers0
      if stmAttackers = 0 then result0 ≠ 0
      else
        let result := result0 ^^^ 1
        let pt := leastAttackerType p stmAttackers
        if pt = KING then
          if attackers &&& p.piecesC (flip_color stm) ≠ 0 then (result ^^^ 1) ≠ 0
          else result ≠ 0
        else
          let b := stmAttackers &&& p.byTypeBB pt
          let balance : Int := -balance0 - PieceValue pt - 1
          if 0 ≤ balance then result ≠ 0
          else
            let occupied := occupied0 ^^^ square_bb (lsbN b)
            let attackers1 := if pt = PAWN ∨ pt = BISHOP ∨ pt = QUEEN then
                attackers ||| (bishopAttacks tsq occupied &&&
                  (p.byTypeBB BISHOP ||| p.byTypeBB QUEEN))
              else attackers
            let attackers2 := if pt = ROOK ∨ pt = QUEEN then
                attackers1 ||| (rookAttacks tsq occupied &&&
                  (p.byTypeBB ROOK ||| p.byTypeBB QUEEN))
              else attackers1
            seeLoop p tsq fuel stm balance result occupied attackers2

/-- Position::see_ge (position.cpp 995-1114). -/
def Pos.see_ge (p : Pos) (m : Move) (threshold : Int) : Bool :=
  if m.mtype ≠ NORMAL then 0 ≥ threshold
  else
    let fr := m.fromSq
    let tsq := m.toSq
    let balance0 : Int := PieceValue (p.board tsq) - threshold
    if balance0 < 0 then false
    else
      let balance1 := balance0 - PieceValue (p.board fr)
      if 0 ≤ balance1 then true
      else
        let stm := color_of (p.board fr)
        let occupied := p.pieces ^^^ square_bb fr ^^^ square_bb tsq
        let attackers := p.attackers_to_occ tsq occupied
        seeLoop p tsq 64 stm balance1 1 occupied attackers

/-! ## Concrete data for the scenario claims -/

/-- The standard starting position. -/
def startFEN : String := "rnbqkbnr/pppppppp/8/8/8/8/PPPPPPPP/RNBQKBNR w KQkq - 0 1"

/-- A concrete Zobrist table used to evaluate the scenario claims on
explicit inputs (the engine builds its table from a seeded PRNG that
lives in a header outside this snapshot; the scenario facts proved below
hold for every table, and this one exhibits the counterexamples). -/
def zobDemo : Zob :=
  { psq := fun pc s => (pc * 64 + s + 1) * 2654435761 % 18446744073709551616,
    enpassant := fun f => (900000 + f) * 48273,
    castling := fun mask => mask * 99991,
    noPawns := 31337, side := 777777777 }

/-- A position whose current StateInfo carries repetition = -4, as after
the eighth ply of a knight shuffle that repeats the starting position a
third time. -/
def posRepDemo : Pos :=
  { Pos.emptyPos with sts := [{ StateInfo.zero with repetition := -4 }] }

theorem probe_found_eq_false (c : Fin 3 → TTEntry) (gen8 key : Nat)
    (h : uint16 (key >>> 48) = 0) :
    (TranspositionTable.probe c gen8 key).found = false := by
  unfold TranspositionTable.probe
  rw [h]
  by_cases h0 : (c 0).key16 = 0 ∨ (c 0).key16 = 0
  · simp only [h0, if_true]
    rcases h0 with h0 | h0 <;> simp [h0]
  · rw [if_neg h0]
    by_cases h1 : (c 1).key16 = 0 ∨ (c 1).key16 = 0
    · simp only [h1, if_true]
      rcases h1 with h1 | h1 <;> simp [h1]
    · rw [if_neg h1]
      by_cases h2 : (c 2).key16 = 0 ∨ (c 2).key16 = 0
      · simp only [h2, if_true]
        rcases h2 with h2 | h2 <;> simp [h2]
      · rw [if_neg h2]

theorem uint8_or_low {gen8 : Nat} (x : Nat) (h7 : gen8 &&& 7 = 0) :
    uint8 (gen8 ||| (x &&& 7)) &&& 7 = x &&& 7 := by
  have hb : ∀ i, (gen8 &&& 7).testBit i = false := by
    intro i
    rw [h7]
    simp
  apply Nat.eq_of_testBit_eq
  intro i
  have h7i : (7 : Nat).testBit i = decide (i < 3) := by
    have h73 : (7 : Nat) = 2 ^ 3 - 1 := by norm_num
    rw [h73, Nat.testBit_two_pow_sub_one]
  have h8 : (256 : Nat) = 2 ^ 8 := by norm_num
  simp only [uint8, h8, Nat.testBit_mod_two_pow, Nat.testBit_and, Nat.testBit_or, h7i]
  by_cases h3 : i < 3
  · have hg : gen8.testBit i = false := by
      have hbi := hb i
      rw [Nat.testBit_and, h7i] at hbi
      simpa [h3] using hbi
    have h8i : i < 8 := by omega
    simp [h3, h8i, hg]
  · simp [h3]

theorem forall_fin3 (P : Fin 3 → Prop) (h0 : P 0) (h1 : P 1) (h2 : P 2) :
    ∀ j, P j := by
  intro j
  fin_cases j <;> assumption

theorem fin3_cases : ∀ i : Fin 3, i = 0 ∨ i = 1 ∨ i = 2 := by decide

theorem fin3_pos : ∀ i : Fin 3, i ≠ 0 → 0 < i := by decide

theorem fin3_ne02 : ∀ i : Fin 3, i ≠ 0 → i ≠ 2 → i = 1 := by decide

theorem fin3_ne01 : ∀ i : Fin 3, i ≠ 0 → i ≠ 1 → i = 2 := by decide

theorem probe_refresh_props (c : Fin 3 → TTEntry) (gen8 : Nat)
    (hgen7 : gen8 &&& 7 = 0) (k : Fin 3) :
    (Function.update c k (tt_refresh gen8 (c k)) k).genBound8 =
      uint8 (gen8 ||| ((c k).genBound8 &&& 7)) ∧
    (Function.update c k (tt_refresh gen8 (c k)) k).genBound8 &&& 7 =
      (c k).genBound8 &&& 7 ∧
    (Function.update c k (tt_refresh gen8 (c k)) k).key16 = (c k).key16 ∧
    (Function.update c k (tt_refresh gen8 (c k)) k).move16 = (c k).move16 ∧
    (Function.update c k (tt_refresh gen8 (c k)) k).value16 = (c k).value16 ∧
    (Function.update c k (tt_refresh gen8 (c k)) k).eval16 = (c k).eval16 ∧
    (Function.update c k (tt_refresh gen8 (c k)) k).depth8 = (c k).depth8 ∧
    (∀ j : Fin 3, j ≠ k → Function.update c k (tt_refresh gen8 (c k)) j = c j) := by
  have h : Function.update c k (tt_refresh gen8 (c k)) k = tt_refresh gen8 (c k) :=
    Function.update_same k (tt_refresh gen8 (c k)) c
  exact ⟨by rw [h]; rfl, by rw [h]; exact uint8_or_low _ hgen7, by rw [h]; rfl,
    by rw [h]; rfl, by rw [h]; rfl, by rw [h]; rfl, by rw [h]; rfl,
    fun j hj => Function.update_noteq hj _ _⟩

/-- Claim C7: TTEntry::save updates move16 exactly when the new move is
non-null or the stored key differs from the high 16 bits of the new key,
and it overwrites key16, value16, eval16, genBound8 and depth8 exactly
when the key changed, the new depth exceeds the stored depth minus 4, or
the bound is Exact; otherwise those five fields keep their old values. -/
theorem tt_save_characterization (e : TTEntry) (gen8 k : Nat) (v : Int) (pv : Bool)
    (b : Nat) (d : Int) (m : Nat) (ev : Int) :
    (e.save gen8 k v pv b d m ev).move16 =
      (if m ≠ 0 ∨ uint16 (k >>> 48) ≠ e.key16 then uint16 m else e.move16) ∧
    (e.save gen8 k v pv b d m ev).key16 =
      (if uint16 (k >>> 48) ≠ e.key16 ∨ d > e.depth8 - 4 ∨ b = BOUND_EXACT then
        uint16 (k >>> 48) else e.key16) ∧
    (e.save gen8 k v pv b d m ev).value16 =
      (if uint16 (k >>> 48) ≠ e.key16 ∨ d > e.depth8 - 4 ∨ b = BOUND_EXACT then
        int16cast v else e.value16) ∧
    (e.save gen8 k v pv b d m ev).eval16 =
      (if uint16 (k >>> 48) ≠ e.key16 ∨ d > e.depth8 - 4 ∨ b = BOUND_EXACT then
        int16cast ev else e.eval16) ∧
    (e.save gen8 k v pv b d m ev).genBound8 =
      (if uint16 (k >>> 48) ≠ e.key16 ∨ d > e.depth8 - 4 ∨ b = BOUND_EXACT then
        uint8 (gen8 ||| ((if pv then 1 else 0) <<< 2) ||| b) else e.genBound8) ∧
    (e.save gen8 k v pv b d m ev).depth8 =
      (if uint16 (k >>> 48) ≠ e.key16 ∨ d > e.depth8 - 4 ∨ b = BOUND_EXACT then
        int8cast d else e.depth8) := by
  by_cases hc : uint16 (k >>> 48) ≠ e.key16 ∨ d > e.depth8 - 4 ∨ b = BOUND_EXACT <;>
    by_cases hm : m ≠ 0 ∨ uint16 (k >>> 48) ≠ e.key16 <;>
      simp [TTEntry.save, hc, hm]

/-- Claim C6: probe scans the three entries of the cluster in order; at
the first entry whose key16 matches the high 16 bits of the probed key or
is zero it refreshes the generation (preserving the low three PV/bound
bits) and returns that entry with found = (key16 different from 0); when
no entry matches it returns found = false together with the entry of
minimal replacement score depth8 - ((263 + generation8 - genBound8) and
0xF8), the earliest such entry on ties. -/
theorem tt_probe_characterization (c : Fin 3 → TTEntry) (gen8 key : Nat)
    (hgen7 : gen8 &&& 7 = 0) :
    (∀ i0 : Fin 3, ((c i0).key16 = 0 ∨ (c i0).key16 = uint16 (key >>> 48)) →
      (∀ j, j < i0 → (c j).key16 ≠ 0 ∧ (c j).key16 ≠ uint16 (key >>> 48)) →
      (TranspositionTable.probe c gen8 key).idx = i0 ∧
      (TranspositionTable.probe c gen8 key).found = decide ((c i0).key16 ≠ 0) ∧
      ((TranspositionTable.probe c gen8 key).cluster i0).genBound8 =
        uint8 (gen8 ||| ((c i0).genBound8 &&& 7)) ∧
      ((TranspositionTable.probe c gen8 key).cluster i0).genBound8 &&& 7 =
        (c i0).genBound8 &&& 7 ∧
      ((TranspositionTable.probe c gen8 key).cluster i0).key16 = (c i0).key16 ∧
      ((TranspositionTable.probe c gen8 key).cluster i0).move16 = (c i0).move16 ∧
      ((TranspositionTable.probe c gen8 key).cluster i0).value16 = (c i0).value16 ∧
      ((TranspositionTable.probe c gen8 key).cluster i0).eval16 = (c i0).eval16 ∧
      ((TranspositionTable.probe c gen8 key).cluster i0).depth8 = (c i0).depth8 ∧
      (∀ j : Fin 3, j ≠ i0 →
        (TranspositionTable.probe c gen8 key).cluster j = c j)) ∧
    ((∀ i : Fin 3, (c i).key16 ≠ 0 ∧ (c i).key16 ≠ uint16 (key >>> 48)) →
      (TranspositionTable.probe c gen8 key).found = false ∧
      (TranspositionTable.probe c gen8 key).cluster = c ∧
      (∀ j : Fin 3, tt_replace_score gen8 (c (TranspositionTable.probe c gen8 key).idx) ≤
        tt_replace_score gen8 (c j)) ∧
      (∀ j : Fin 3, j < (TranspositionTable.probe c gen8 key).idx →
        tt_replace_score gen8 (c (TranspositionTable.probe c gen8 key).idx) <
          tt_replace_score gen8 (c j))) := by
  unfold TranspositionTable.probe
  by_cases h0 : (c 0).key16 = 0 ∨ (c 0).key16 = uint16 (key >>> 48)
  · simp only [h0, if_true]
    constructor
    · intro i0 hm hless
      have hi0 : i0 = 0 := by
        by_contra hne
        have := hless 0 (fin3_pos i0 hne)
        tauto
      subst hi0
      have hp := probe_refresh_props c gen8 hgen7 0
      exact ⟨rfl, rfl, hp.1, hp.2.1, hp.2.2.1, hp.2.2.2.1, hp.2.2.2.2.1,
        hp.2.2.2.2.2.1, hp.2.2.2.2.2.2.1, hp.2.2.2.2.2.2.2⟩
    · intro hall
      have := hall 0
      tauto
  · rw [if_neg h0]
    by_cases h1 : (c 1).key16 = 0 ∨ (c 1).key16 = uint16 (key >>> 48)
    · simp only [h1, if_true]
      constructor
      · intro i0 hm hless
        have hi0 : i0 = 1 := by
          have hne0 : i0 ≠ 0 := by
            intro h
            rw [h] at hm
            tauto
          have hne2 : i0 ≠ 2 := by
            intro h
            rw [h] at hless
            have := hless 1 (by decide)
            tauto
          exact fin3_ne02 i0 hne0 hne2
        subst hi0
        have hp := probe_refresh_props c gen8 hgen7 1
        exact ⟨rfl, rfl, hp.1, hp.2.1, hp.2.2.1, hp.2.2.2.1, hp.2.2.2.2.1,
          hp.2.2.2.2.2.1, hp.2.2.2.2.2.2.1, hp.2.2.2.2.2.2.2⟩
      · intro hall
        have := hall 1
        tauto
    · rw [if_neg h1]
      by_cases h2 : (c 2).key16 = 0 ∨ (c 2).key16 = uint16 (key >>> 48)
      · simp only [h2, if_true]
        constructor
        · intro i0 hm hless
          have hi0 : i0 = 2 := by
            have hne0 : i0 ≠ 0 := by
              intro h
              rw [h] at hm
              tauto
            have hne1 : i0 ≠ 1 := by
              intro h
              rw [h] at hm
              tauto
            exact fin3_ne01 i0 hne0 hne1
          subst hi0
          have hp := probe_refresh_props c gen8 hgen7 2
          exact ⟨rfl, rfl, hp.1, hp.2.1, hp.2.2.1, hp.2.2.2.1, hp.2.2.2.2.1,
            hp.2.2.2.2.2.1, hp.2.2.2.2.2.2.1, hp.2.2.2.2.2.2.2⟩
        · intro hall
          have := hall 2
          tauto
      · rw [if_neg h2]
        constructor
        · intro i0 hm _
          rcases fin3_cases i0 with h | h | h <;> rw [h] at hm <;> tauto
        · intro _
          refine ⟨rfl, rfl, ?_, ?_⟩ <;>
          · by_cases ha : tt_replace_score gen8 (c 0) > tt_replace_score gen8 (c 1)
            · by_cases hb : tt_replace_score gen8 (c 1) > tt_replace_score gen8 (c 2)
              · simp only [ha, hb, if_true]
                first
                | exact forall_fin3 _ (by omega) (by omega) (by omega)
                | exact forall_fin3 _ (fun _ => by omega) (fun _ => by omega)
                    (fun h => absurd h (by decide))
              · simp only [ha, hb, if_true, if_false]
                first
                | exact forall_fin3 _ (by omega) (by omega) (by omega)
                | exact forall_fin3 _ (fun _ => by omega)
                    (fun h => absurd h (by decide)) (fun h => absurd h (by decide))
            · by_cases hb : tt_replace_score gen8 (c 0) > tt_replace_score gen8 (c 2)
              · simp only [ha, hb, if_true, if_false]
                first
                | exact forall_fin3 _ (by omega) (by omega) (by omega)
                | exact forall_fin3 _ (fun _ => by omega) (fun _ => by omega)
                    (fun h => absurd h (by decide))
              · simp only [ha, hb, if_false]
                first
                | exact forall_fin3 _ (by omega) (by omega) (by omega)
                | exact forall_fin3 _ (fun h => absurd h (by decide))
                    (fun h => absurd h (by decide)) (fun h => absurd h (by decide))
theorem tt_probe_characterization_witness :
    ((16 : Nat) &&& 7 = 0) ∧
    (TranspositionTable.probe
      (fun i => if i = 0 then ⟨1, 0, 0, 0, 9, 5⟩
        else if i = 1 then ⟨2, 0, 0, 0, 250, -3⟩ else ⟨3, 0, 0, 0, 16, 5⟩)
      16 (4 <<< 48)).found = false :=
  ⟨by decide,
    ((tt_probe_characterization
      (fun i => if i = 0 then ⟨1, 0, 0, 0, 9, 5⟩
        else if i = 1 then ⟨2, 0, 0, 0, 250, -3⟩ else ⟨3, 0, 0, 0, 16, 5⟩)
      16 (4 <<< 48) (by decide)).2 (by decide)).1⟩

/-- Claim C10: for a position key whose high 16 bits are zero, probe
always reports found = false on every cluster, including the cluster
produced by saving that very key, because when save overwrites an entry
for such a key it stores key16 = 0, which is indistinguishable from an
empty slot. -/
theorem tt_zero_high_key_never_found (key : Nat) (h : key >>> 48 = 0) :
    (∀ c : Fin 3 → TTEntry, ∀ gen8 : Nat,
      (TranspositionTable.probe c gen8 key).found = false) ∧
    (∀ e : TTEntry, ∀ gen8 : Nat, ∀ v : Int, ∀ pv : Bool, ∀ b : Nat, ∀ d : Int,
      ∀ m : Nat, ∀ ev : Int,
      (uint16 (key >>> 48) ≠ e.key16 ∨ d > e.depth8 - 4 ∨ b = BOUND_EXACT) →
      (e.save gen8 key v pv b d m ev).key16 = 0) := by
  constructor
  · intro c gen8
    apply probe_found_eq_false
    rw [h]
    rfl
  · intro e gen8 v pv b d m ev hcond
    unfold TTEntry.save
    rw [if_pos hcond]
    simp [h]
    rfl

theorem tt_zero_high_key_never_found_witness :
    ((12345 : Nat) >>> 48 = 0) ∧
    (TranspositionTable.probe
      (fun _ => TTEntry.save ⟨0, 0, 0, 0, 0, 0⟩ 8 12345 50 false 2 7 333 4)
      8 12345).found = false :=
  ⟨by decide,
    (tt_zero_high_key_never_found 12345 (by decide)).1
      (fun _ => TTEntry.save ⟨0, 0, 0, 0, 0, 0⟩ 8 12345 50 false 2 7 333 4) 8⟩

theorem xor_rot (a b c d : Nat) : a ^^^ b ^^^ c ^^^ d = a ^^^ c ^^^ d ^^^ b := by
  simp only [Nat.xor_assoc]
  rw [Nat.xor_comm b (c ^^^ d)]
  simp only [Nat.xor_assoc]

/-- Claim C4 (corrected): is_draw compares the signed repetition field
with ply (position.cpp 1124), not its absolute value: it returns true iff
repetition ≠ 0 and repetition < ply. The spec statement with the absolute
value agrees whenever repetition is nonnegative, but a negative
repetition (a third occurrence) already counts as a draw at any ply. -/
theorem is_draw_signed_characterization (p : Pos) (ply : Int) :
    (p.is_draw ply = true ↔ p.st.repetition ≠ 0 ∧ p.st.repetition < ply) ∧
    (0 ≤ p.st.repetition →
      (p.is_draw ply = true ↔ p.st.repetition ≠ 0 ∧ |p.st.repetition| < ply)) := by
  constructor
  · simp [Pos.is_draw]
  · intro h
    rw [abs_of_nonneg h]
    simp [Pos.is_draw]

theorem is_draw_signed_characterization_witness :
    ((0 : Int) ≤ Pos.emptyPos.st.repetition) ∧
    (Pos.emptyPos.is_draw 3 = true ↔
      Pos.emptyPos.st.repetition ≠ 0 ∧ |Pos.emptyPos.st.repetition| < 3) :=
  ⟨by decide, (is_draw_signed_characterization Pos.emptyPos 3).2 (by decide)⟩

/-- Claim C4 counterexample: with the current StateInfo carrying
repetition = -4 (a third occurrence found toward the root), is_draw(3)
returns true although |repetition| = 4 is not less than ply = 3. -/
theorem is_draw_abs_counterexample :
    posRepDemo.is_draw 3 = true ∧
    ¬(posRepDemo.st.repetition ≠ 0 ∧ |posRepDemo.st.repetition| < 3) := by
  constructor
  · decide
  · decide
